import Mathlib

/-
  Shallow embedding of the schema-versioned migration engine of the
  futures-trading-journal repository (migrations.py, together with the
  bootstrap fragments of database.py, billing_model.py and
  physical_model.py).

  A store is an association list from table name to table; a table is a
  column-name list together with rows, each row an association list from
  column name to value.  A connection carries the committed store and the
  current (uncommitted) store, mirroring Python sqlite3's legacy
  transaction handling: DDL statements execute in autocommit mode when no
  transaction is open, DML statements open an implicit transaction, and
  `conn.commit()` publishes the current state.  An exception abandons the
  connection, so the visible store is the committed part.
-/

namespace FTJ

inductive Value where
  | intV : Int → Value
  | strV : String → Value
  | nullV : Value
deriving DecidableEq, Repr

abbrev Row := List (String × Value)

structure Table where
  columns : List String
  rows : List Row
deriving DecidableEq, Repr

abbrev Store := List (String × Table)

/-- First-match association-list lookup (SQL name resolution). -/
def alookup {β : Type} : List (String × β) → String → Option β
  | [], _ => none
  | (k, v) :: rest, n => if k = n then some v else alookup rest n

/-- Replace the first binding of `n` (or append one). -/
def setTable (s : Store) (n : String) (t : Table) : Store :=
  match s with
  | [] => [(n, t)]
  | (m, u) :: rest => if m = n then (n, t) :: rest else (m, u) :: setTable rest n t

/-- Remove every binding of `n`. -/
def delTable (s : Store) (n : String) : Store :=
  s.filter (fun p => p.1 != n)

def tableExists (s : Store) (n : String) : Bool :=
  (alookup s n).isSome

/-- `PRAGMA table_info(n)`: the column names, `[]` when the table is absent. -/
def pragmaColumns (s : Store) (n : String) : List String :=
  match alookup s n with
  | some t => t.columns
  | none => []

/-- `CREATE TABLE IF NOT EXISTS` — a no-op when the table exists. -/
def createTableIfNotExists (s : Store) (n : String) (cols : List String) : Store :=
  if tableExists s n then s else s ++ [(n, ⟨cols, []⟩)]

/-- `CREATE TABLE` — errors when the table exists. -/
def createTable (s : Store) (n : String) (cols : List String) : Except String Store :=
  if tableExists s n then Except.error ("table " ++ n ++ " already exists")
  else Except.ok (s ++ [(n, ⟨cols, []⟩)])

/-- `ALTER TABLE n ADD COLUMN col`: errors on a missing table or a
duplicate column; existing rows get NULL in the new column. -/
def alterAddColumn (s : Store) (n col : String) : Except String Store :=
  match alookup s n with
  | none => Except.error ("no such table: " ++ n)
  | some t =>
    if col ∈ t.columns then Except.error ("duplicate column name: " ++ col)
    else Except.ok (setTable s n ⟨t.columns ++ [col], t.rows.map (fun r => r ++ [(col, Value.nullV)])⟩)

/-- `ALTER TABLE old RENAME TO dst`. -/
def renameTable (s : Store) (old dst : String) : Except String Store :=
  match alookup s old with
  | none => Except.error ("no such table: " ++ old)
  | some t =>
    if tableExists s dst then Except.error ("table " ++ dst ++ " already exists")
    else Except.ok (delTable s old ++ [(dst, t)])

def dropTable (s : Store) (n : String) : Except String Store :=
  if tableExists s n then Except.ok (delTable s n)
  else Except.error ("no such table: " ++ n)

def dropTableIfExists (s : Store) (n : String) : Store :=
  delTable s n

/-- Read a column of a row; SQL yields NULL for an unset field. -/
def rowGet (r : Row) (c : String) : Value :=
  match alookup r c with
  | some v => v
  | none => Value.nullV

/-- The row built by `INSERT INTO dest (destCols...) SELECT srcCols... FROM src`
for one source row: listed destination columns receive the mapped source
value, unlisted ones their declared default (NULL when none). -/
def mapRow (destAll : List String) (mapping : List (String × String)) (defaults : Row)
    (r : Row) : Row :=
  destAll.map (fun c =>
    match mapping.find? (fun p => p.1 == c) with
    | some p => (c, rowGet r p.2)
    | none => (c, (alookup defaults c).getD Value.nullV))

/-- `INSERT INTO dest (destCols) SELECT srcCols FROM src`: errors when a
table or a referenced column is missing, or when a NOT NULL destination
column would receive NULL. -/
def insertSelectMapped (s : Store) (dest : String) (destCols : List String)
    (src : String) (srcCols : List String) (defaults : Row) (notNull : List String) :
    Except String Store :=
  match alookup s src with
  | none => Except.error ("no such table: " ++ src)
  | some ts =>
    if !srcCols.all (fun c => ts.columns.contains c) then
      Except.error "no such column in source table"
    else
      match alookup s dest with
      | none => Except.error ("no such table: " ++ dest)
      | some td =>
        if !destCols.all (fun c => td.columns.contains c) then
          Except.error "no such column in destination table"
        else
          let mapping := destCols.zip srcCols
          let newRows := ts.rows.map (mapRow td.columns mapping defaults)
          if !newRows.all (fun nr => notNull.all (fun c => !(rowGet nr c == Value.nullV))) then
            Except.error "NOT NULL constraint failed"
          else
            Except.ok (setTable s dest ⟨td.columns, td.rows ++ newRows⟩)

/-! ## The version ledger (schema_version table) -/

def schemaVersionCols : List String :=
  ["version", "description", "applied_at", "execution_time"]

def versionOfRow (r : Row) : Option Int :=
  match alookup r "version" with
  | some (Value.intV v) => some v
  | _ => none

def ledgerVersionsOf (t : Table) : List Int :=
  t.rows.filterMap versionOfRow

/-- `SELECT MAX(version) FROM schema_version`, with the Python guard
`result[0] if result and result[0] else 0` (NULL and 0 both give 0). -/
def get_current_version (s : Store) : Int :=
  match alookup s "schema_version" with
  | none => 0
  | some t =>
    match (ledgerVersionsOf t).max? with
    | none => 0
    | some v => if v = 0 then 0 else v

def ledgerHasVersion (s : Store) (v : Int) : Bool :=
  match alookup s "schema_version" with
  | none => false
  | some t => (ledgerVersionsOf t).contains v

/-- `INSERT INTO schema_version (version, description, applied_at,
execution_time) VALUES (?,?,?,?)`; version is the primary key. -/
def ledgerInsert (s : Store) (v : Int) (desc : String) (appliedAt execTime : Int) :
    Except String Store :=
  match alookup s "schema_version" with
  | none => Except.error "no such table: schema_version"
  | some t =>
    if (ledgerVersionsOf t).contains v then
      Except.error "UNIQUE constraint failed: schema_version.version"
    else
      Except.ok (setTable s "schema_version"
        ⟨t.columns,
         t.rows ++ [[("version", Value.intV v), ("description", Value.strV desc),
                     ("applied_at", Value.intV appliedAt),
                     ("execution_time", Value.intV execTime)]]⟩)

/-- `DELETE FROM schema_version WHERE version = ?`. -/
def ledgerDelete (s : Store) (v : Int) : Except String Store :=
  match alookup s "schema_version" with
  | none => Except.error "no such table: schema_version"
  | some t =>
    Except.ok (setTable s "schema_version"
      ⟨t.columns, t.rows.filter (fun r => !(rowGet r "version" == Value.intV v))⟩)

/-! ## Connections and statement execution -/

structure Conn where
  committed : Store
  cur : Store
  inTx : Bool
deriving DecidableEq, Repr

inductive SqlOut where
  | ok : Conn → SqlOut
  | err : String → Conn → SqlOut
deriving DecidableEq, Repr

def SqlOut.seq (r : SqlOut) (f : Conn → SqlOut) : SqlOut :=
  match r with
  | SqlOut.ok c => f c
  | SqlOut.err m c => SqlOut.err m c

def SqlOut.isErr : SqlOut → Bool
  | SqlOut.ok _ => false
  | SqlOut.err _ _ => true

/-- A DDL statement: autocommits when no transaction is open. -/
def execDDL (c : Conn) (f : Store → Except String Store) : SqlOut :=
  match f c.cur with
  | Except.error e => SqlOut.err e c
  | Except.ok s => if c.inTx then SqlOut.ok ⟨c.committed, s, true⟩ else SqlOut.ok ⟨s, s, false⟩

/-- A DDL statement that cannot fail. -/
def execDDLTotal (c : Conn) (f : Store → Store) : Conn :=
  let s := f c.cur
  if c.inTx then ⟨c.committed, s, true⟩ else ⟨s, s, false⟩

/-- A DML statement: opens an implicit transaction. -/
def execDML (c : Conn) (f : Store → Except String Store) : SqlOut :=
  match f c.cur with
  | Except.error e => SqlOut.err e c
  | Except.ok s => SqlOut.ok ⟨c.committed, s, true⟩

def Conn.commit (c : Conn) : Conn :=
  ⟨c.cur, c.cur, false⟩

/-! ## Migration 001: add supplier-related columns to trades -/

def supplierCols : List String :=
  ["supplier", "settlement_price", "premium", "physical_tons", "related_po"]

/-- One guarded ALTER of `Migration001_AddSupplierFields.up`: the column is
added only when it was missing from the snapshot `cols0` read up front. -/
def addColStep (cols0 : List String) (col : String) (c : Conn) : SqlOut :=
  if cols0.contains col then SqlOut.ok c
  else execDDL c (fun s => alterAddColumn s "trades" col)

def addColsFold (cols0 : List String) (names : List String) (r : SqlOut) : SqlOut :=
  names.foldl (fun r col => r.seq (addColStep cols0 col)) r

/-- `Migration001_AddSupplierFields.up`: read the trades columns once, then
add each missing column with a guarded ALTER. -/
def migration001_up (c : Conn) : SqlOut :=
  addColsFold (pragmaColumns c.cur "trades") supplierCols (SqlOut.ok c)

/-- The trades column list of `Migration001_AddSupplierFields.down`
(the pre-migration table shape, without the supplier fields). -/
def legacyTradesCols : List String :=
  ["id", "trade_date", "exchange", "product_name", "contract", "direction",
   "entry_price", "quantity", "stop_loss", "take_profit", "exit_price",
   "exit_date", "fee", "profit_loss", "status", "ma5", "ma10", "ma20",
   "rsi", "macd", "entry_reason", "market_trend", "notes",
   "created_at", "updated_at"]

/-- `Migration001_AddSupplierFields.down`: rebuild trades without the
supplier fields via create-temp / copy / drop / rename. -/
def migration001_down (c : Conn) : SqlOut :=
  (execDDL c (fun s => createTable s "trades_temp" legacyTradesCols)).seq (fun c =>
  (execDML c (fun s =>
      insertSelectMapped s "trades_temp" legacyTradesCols "trades" legacyTradesCols [] [])).seq (fun c =>
  (execDDL c (fun s => dropTable s "trades")).seq (fun c =>
  execDDL c (fun s => renameTable s "trades_temp" "trades"))))

/-! ## Migration 002: the billing_records table -/

def billingCols : List String :=
  ["id", "trade_id", "billing_month", "base_month", "base_price",
   "settlement_price", "quantity", "physical_tons", "settlement_amount",
   "discount", "related_po", "notes", "created_at", "updated_at"]

def billingCopyDest : List String :=
  ["id", "trade_id", "billing_month", "base_month", "base_price",
   "settlement_price", "quantity", "physical_tons", "settlement_amount",
   "discount", "notes", "created_at", "updated_at"]

def billingCopySrc : List String :=
  ["id", "trade_id", "billing_date", "base_month", "base_price",
   "settlement_price", "quantity", "physical_tons", "settlement_amount",
   "discount", "notes", "created_at", "updated_at"]

/-- NOT NULL columns of the canonical billing_records table. -/
def billingNotNull : List String :=
  ["trade_id", "billing_month", "base_month", "base_price",
   "settlement_price", "quantity", "physical_tons", "settlement_amount",
   "discount"]

/-- The row transformation of migration 002's legacy-data copy. -/
def billingMapRow (r : Row) : Row :=
  mapRow billingCols (billingCopyDest.zip billingCopySrc) [] r

/-- `Migration002_AddBillingTable.up`: rename a legacy-shaped
billing_records out of the way, create the canonical table, copy legacy
rows across, then drop the renamed table. -/
def migration002_up (c : Conn) : SqlOut :=
  (if tableExists c.cur "billing_records" then
     let cols := pragmaColumns c.cur "billing_records"
     if cols.contains "billing_date" && !(cols.contains "billing_month") then
       execDDL c (fun s => renameTable s "billing_records" "billing_records_old")
     else SqlOut.ok c
   else SqlOut.ok c).seq (fun c =>
  (SqlOut.ok (execDDLTotal c (fun s => createTableIfNotExists s "billing_records" billingCols))).seq (fun c =>
  if tableExists c.cur "billing_records_old" then
    (execDML c (fun s =>
        insertSelectMapped s "billing_records" billingCopyDest
          "billing_records_old" billingCopySrc [] billingNotNull)).seq (fun c =>
    execDDL c (fun s => dropTable s "billing_records_old"))
  else SqlOut.ok c))

/-- `Migration002_AddBillingTable.down`: `DROP TABLE IF EXISTS billing_records`. -/
def migration002_down (c : Conn) : SqlOut :=
  SqlOut.ok (execDDLTotal c (fun s => dropTableIfExists s "billing_records"))

/-! ## MigrationManager -/

def latestVersion : Int := 2

def registryHas (v : Int) : Bool :=
  v == 1 || v == 2

def migrationDesc (v : Int) : String :=
  if v = 1 then "添加供应商相关字段" else "添加账务核销表"

def migrationUp (v : Int) (c : Conn) : SqlOut :=
  if v = 1 then migration001_up c else migration002_up c

def migrationDown (v : Int) (c : Conn) : SqlOut :=
  if v = 1 then migration001_down c else migration002_down c

structure MigResult where
  ok : Bool
  store : Store
  clock : Nat
deriving DecidableEq, Repr

/-- The ascending version list `range(current+1, target+1)`. -/
def versionRange (current target : Int) : List Int :=
  (List.range (target - current).toNat).map (fun i => current + 1 + Int.ofNat i)

/-- The descending version list `range(current, target, -1)`. -/
def downRange (current target : Int) : List Int :=
  (List.range (current - target).toNat).map (fun i => current - Int.ofNat i)

/-- The per-version loop of `MigrationManager.migrate`: apply the step,
record it in the ledger, commit; any exception abandons the connection
(the visible store is the committed part). The clock ticks at each
`datetime.now()` call; a step's ledger row stores the third tick. -/
def migrateLoop : List Int → Conn → Nat → MigResult
  | [], c, clk => ⟨true, c.committed, clk⟩
  | v :: vs, c, clk =>
    if registryHas v then
      match migrationUp v c with
      | SqlOut.err _ c2 => ⟨false, c2.committed, clk + 1⟩
      | SqlOut.ok c2 =>
        match execDML c2 (fun s =>
            ledgerInsert s v (migrationDesc v) (Int.ofNat (clk + 2)) 1) with
        | SqlOut.err _ c3 => ⟨false, c3.committed, clk + 3⟩
        | SqlOut.ok c3 => migrateLoop vs c3.commit (clk + 3)
    else migrateLoop vs c clk

/-- `MigrationManager.migrate(target_version=None)`. -/
def migrate (s : Store) (targetArg : Option Int) (clk : Nat) : MigResult :=
  let current := get_current_version s
  let target0 := targetArg.getD latestVersion
  if target0 ≤ current then ⟨true, s, clk⟩
  else
    let target := if target0 > latestVersion then latestVersion else target0
    let c := execDDLTotal ⟨s, s, false⟩
      (fun st => createTableIfNotExists st "schema_version" schemaVersionCols)
    migrateLoop (versionRange current target) c clk

/-- The per-version loop of `MigrationManager.rollback`. -/
def rollbackLoop : List Int → Conn → Bool × Store
  | [], c => (true, c.committed)
  | v :: vs, c =>
    if registryHas v then
      match migrationDown v c with
      | SqlOut.err _ c2 => (false, c2.committed)
      | SqlOut.ok c2 =>
        match execDML c2 (fun s => ledgerDelete s v) with
        | SqlOut.err _ c3 => (false, c3.committed)
        | SqlOut.ok c3 => rollbackLoop vs c3.commit
    else rollbackLoop vs c

/-- `MigrationManager.rollback(target_version)`. -/
def rollback (s : Store) (target : Int) : Bool × Store :=
  let current := get_current_version s
  if target ≥ current then (false, s)
  else rollbackLoop (downRange current target) ⟨s, s, false⟩

/-- `status()['needs_migration']`. -/
def needsMigration (s : Store) : Bool :=
  decide (get_current_version s < latestVersion)

/-- `get_applied_migrations()` projected to (version, applied_at),
ordered by version. -/
def insertSorted (p : Int × Int) : List (Int × Int) → List (Int × Int)
  | [] => [p]
  | q :: rest => if p.1 ≤ q.1 then p :: q :: rest else q :: insertSorted p rest

def sortByVersion : List (Int × Int) → List (Int × Int)
  | [] => []
  | p :: rest => insertSorted p (sortByVersion rest)

def appliedLedger (s : Store) : List (Int × Int) :=
  match alookup s "schema_version" with
  | none => []
  | some t =>
    sortByVersion (t.rows.map (fun r =>
      (match alookup r "version" with
       | some (Value.intV v) => v
       | _ => 0,
       match alookup r "applied_at" with
       | some (Value.intV a) => a
       | _ => 0)))

/-! ## Bootstrap: DatabaseManager.init_database (database.py) -/

def bootstrapTradesCols : List String :=
  ["id", "trade_date", "exchange", "product_name", "contract", "direction",
   "entry_price", "quantity", "supplier", "settlement_price", "premium",
   "physical_tons", "related_po", "stop_loss", "take_profit", "exit_price",
   "exit_date", "fee", "profit_loss", "status", "ma5", "ma10", "ma20",
   "rsi", "macd", "entry_reason", "market_trend", "notes",
   "created_at", "updated_at"]

def smmPriceCols : List String :=
  ["id", "price_date", "highest_price", "lowest_price", "average_price",
   "created_at", "updated_at"]

def productsCols : List String :=
  ["id", "name", "exchange", "created_at", "updated_at"]

def productRow (i : Int) (n : String) : Row :=
  [("id", Value.intV i), ("name", Value.strV n), ("exchange", Value.strV "gfex"),
   ("created_at", Value.strV "now"), ("updated_at", Value.strV "now")]

/-- `DatabaseManager.init_database`: CREATE IF NOT EXISTS for the base
tables, then seed the default products when the table is empty. -/
def init_database (s : Store) : Store :=
  let s := createTableIfNotExists s "trades" bootstrapTradesCols
  let s := createTableIfNotExists s "smm_prices" smmPriceCols
  let s := createTableIfNotExists s "futures_prices" smmPriceCols
  let s := createTableIfNotExists s "products" productsCols
  match alookup s "products" with
  | some t =>
    if t.rows.length = 0 then
      setTable s "products" ⟨t.columns, [productRow 1 "工碳", productRow 2 "电碳"]⟩
    else s
  | none => s

/-- `DatabaseManager.__init__`: run migrations (a failure is only logged),
then initialize the base schema; startup never aborts. -/
def dbManagerStartup (s : Store) (clk : Nat) : Except String (Store × Bool × Nat) :=
  let r := migrate s none clk
  Except.ok (init_database r.store, r.ok, r.clock)

/-- The `python migrations.py migrate` entry point: exit code 0 on
success, 1 on failure. -/
def cliMigrateExit (s : Store) (targetArg : Option Int) (clk : Nat) : Int :=
  if (migrate s targetArg clk).ok then 0 else 1

/-! ## Bootstrap: BillingDatabase.init_database (billing_model.py) -/

/-- The billing_records shape created by the billing bootstrap — note it
has no related_po column, unlike migration 002's canonical shape. -/
def billingBootstrapCols : List String :=
  ["id", "trade_id", "billing_month", "base_month", "base_price",
   "settlement_price", "quantity", "physical_tons", "settlement_amount",
   "discount", "notes", "created_at", "updated_at"]

def billing_init_database (s : Store) : Store :=
  createTableIfNotExists s "billing_records" billingBootstrapCols

/-! ## PhysicalPurchaseDB.init_table (physical_model.py) -/

def physicalCols : List String :=
  ["id", "purchase_date", "supplier", "product_name", "quantity",
   "unit_price", "premium", "total_amount", "po_number", "delivery_date",
   "status", "notes", "created_at", "updated_at"]

def relationsCols : List String :=
  ["id", "purchase_id", "trade_id", "created_at"]

def physicalCopyCols : List String :=
  ["id", "purchase_date", "supplier", "product_name", "quantity",
   "unit_price", "total_amount", "po_number", "delivery_date", "status",
   "notes", "created_at", "updated_at"]

def physicalDefaults : Row :=
  [("premium", Value.intV 0), ("status", Value.strV "pending")]

/-- `PhysicalPurchaseDB.init_table`: create physical_purchases_new and the
relation table; if `SELECT premium FROM physical_purchases` fails (table
or column missing), copy from physical_purchases into the new table, drop
the old and rename — the fallback copy itself reads physical_purchases. -/
def init_table (s : Store) : SqlOut :=
  let c := execDDLTotal ⟨s, s, false⟩
    (fun st => createTableIfNotExists st "physical_purchases_new" physicalCols)
  let c := execDDLTotal c
    (fun st => createTableIfNotExists st "purchase_trade_relations" relationsCols)
  let premiumOk :=
    tableExists c.cur "physical_purchases" &&
      (pragmaColumns c.cur "physical_purchases").contains "premium"
  if premiumOk then SqlOut.ok c.commit
  else
    (execDML c (fun st =>
        insertSelectMapped st "physical_purchases_new" physicalCopyCols
          "physical_purchases" physicalCopyCols physicalDefaults [])).seq (fun c =>
    (execDDL c (fun st => dropTable st "physical_purchases")).seq (fun c =>
    (execDDL c (fun st => renameTable st "physical_purchases_new" "physical_purchases")).seq (fun c =>
    SqlOut.ok c.commit)))

/-! ## Concrete stores used by the scenarios -/

/-- The version-0 legacy billing_records shape (billing_date, no
billing_month, no related_po). -/
def legacyBillingCols : List String :=
  ["id", "trade_id", "billing_date", "base_month", "base_price",
   "settlement_price", "quantity", "physical_tons", "settlement_amount",
   "discount", "notes", "created_at", "updated_at"]

/-- A store seeded with only the version-0 legacy tables. -/
def seededLegacyStore : Store :=
  [("trades", ⟨legacyTradesCols, []⟩),
   ("billing_records", ⟨legacyBillingCols, []⟩)]

/-- The fresh-store path: migrate on the empty store, then the bootstrap
initializers of database.py and billing_model.py. -/
def freshPathStore : Store :=
  billing_init_database (init_database (migrate [] none 0).store)

/-- The legacy path: the seeded version-0 store, upgraded by migrate. -/
def upgradedLegacyStore : Store :=
  (migrate seededLegacyStore none 0).store

/-- Column sets compared as sets. -/
def listSetEq (a b : List String) : Bool :=
  a.all (fun c => b.contains c) && b.all (fun c => a.contains c)

/-- A ledger row as written by migrate (description abbreviated). -/
def ledgerRow (v appliedAt : Int) : Row :=
  [("version", Value.intV v), ("description", Value.strV "d"),
   ("applied_at", Value.intV appliedAt), ("execution_time", Value.intV 1)]

/-- A fully migrated store (ledger at version 2). -/
def storeAtV2 : Store :=
  [("schema_version", ⟨schemaVersionCols, [ledgerRow 1 2, ledgerRow 2 5]⟩),
   ("trades", ⟨bootstrapTradesCols, []⟩),
   ("billing_records", ⟨billingCols, []⟩)]

/-- A store at version 1 whose legacy billing table lacks the base_month
column, so migration 002's row copy fails after the rename committed. -/
def c3store : Store :=
  [("schema_version", ⟨schemaVersionCols, [ledgerRow 1 2]⟩),
   ("billing_records", ⟨["id", "trade_id", "billing_date"], []⟩)]

/-- The one legacy billing row of the spec's concrete scenario. -/
def legacyScenarioRow : Row :=
  [("id", Value.intV 1), ("trade_id", Value.intV 7),
   ("billing_date", Value.strV "2024-03"), ("base_month", Value.strV "2024-01"),
   ("base_price", Value.intV 100000), ("settlement_price", Value.intV 95000),
   ("quantity", Value.intV 10), ("physical_tons", Value.intV 11),
   ("settlement_amount", Value.intV 950000), ("discount", Value.intV 5)]

/-- A store at version 1 with the one-row legacy-shaped billing table. -/
def c4store : Store :=
  [("schema_version", ⟨schemaVersionCols, [ledgerRow 1 2]⟩),
   ("trades", ⟨bootstrapTradesCols, []⟩),
   ("billing_records", ⟨legacyBillingCols, [legacyScenarioRow]⟩)]

/-- The copied columns whose names coincide in source and destination of
migration 002's row copy. -/
def billingVerbatimCols : List String :=
  ["id", "trade_id", "base_month", "base_price", "settlement_price",
   "quantity", "physical_tons", "settlement_amount", "discount", "notes",
   "created_at", "updated_at"]

/-- The store state after migration 002 renamed a legacy billing_records
to billing_records_old and created the canonical empty table. -/
def renamedBillingStore (s : Store) (legacy : Table) : Store :=
  (delTable s "billing_records" ++ [("billing_records_old", legacy)])
    ++ [("billing_records", (⟨billingCols, []⟩ : Table))]

/-- A store holding only the legacy-shaped trades table. -/
def c7store : Store :=
  [("trades", ⟨legacyTradesCols, []⟩)]

/-- A store at version 1 with no billing table at all. -/
def c4storeNoBilling : Store :=
  [("schema_version", ⟨schemaVersionCols, [ledgerRow 1 2]⟩),
   ("trades", ⟨bootstrapTradesCols, []⟩)]

/-! ## Association-list lemmas -/

theorem alookup_cons_eq {β : Type} (rest : List (String × β)) (n : String) (v : β) :
    alookup ((n, v) :: rest) n = some v := by
  simp [alookup]

theorem alookup_cons_ne {β : Type} (rest : List (String × β)) {k n : String}
    (h : k ≠ n) (v : β) : alookup ((k, v) :: rest) n = alookup rest n := by
  simp [alookup, h]

theorem alookup_setTable_self (s : Store) (n : String) (t : Table) :
    alookup (setTable s n t) n = some t := by
  induction s with
  | nil => simp [setTable, alookup]
  | cons p rest ih =>
    obtain ⟨k, u⟩ := p
    by_cases h : k = n
    · simp [setTable, h, alookup]
    · simp [setTable, h, alookup, ih]

theorem alookup_setTable_ne (s : Store) {m n : String} (h : m ≠ n) (t : Table) :
    alookup (setTable s n t) m = alookup s m := by
  induction s with
  | nil => simp [setTable, alookup, Ne.symm h]
  | cons p rest ih =>
    obtain ⟨k, u⟩ := p
    by_cases hk : k = n
    · subst hk
      simp [setTable, alookup, Ne.symm h]
    · by_cases hm : k = m <;> simp [setTable, hk, alookup, hm, ih, h]

theorem alookup_delTable_self (s : Store) (n : String) :
    alookup (delTable s n) n = none := by
  induction s with
  | nil => simp [delTable, alookup]
  | cons p rest ih =>
    obtain ⟨k, u⟩ := p
    simp only [delTable, List.filter_cons] at ih ⊢
    by_cases hk : k = n
    · subst hk
      simp only [bne_self_eq_false, Bool.false_eq_true, if_false]
      exact ih
    · have hf : (k != n) = true := by simp [hk]
      simp only [hf, if_true]
      rw [alookup_cons_ne _ hk]
      exact ih

theorem alookup_delTable_ne (s : Store) {m n : String} (h : m ≠ n) :
    alookup (delTable s n) m = alookup s m := by
  induction s with
  | nil => simp [delTable]
  | cons p rest ih =>
    obtain ⟨k, u⟩ := p
    simp only [delTable, List.filter_cons] at ih ⊢
    by_cases hk : k = n
    · subst hk
      rw [alookup_cons_ne _ (Ne.symm h)]
      simp only [bne_self_eq_false, Bool.false_eq_true, if_false]
      exact ih
    · have hf : (k != n) = true := by simp [hk]
      simp only [hf, if_true]
      by_cases hm : k = m
      · subst hm; rw [alookup_cons_eq, alookup_cons_eq]
      · rw [alookup_cons_ne _ hm, alookup_cons_ne _ hm]
        exact ih

theorem alookup_append_of_some {l₁ l₂ : Store} {n : String} {t : Table}
    (h : alookup l₁ n = some t) : alookup (l₁ ++ l₂) n = some t := by
  induction l₁ with
  | nil => simp [alookup] at h
  | cons p rest ih =>
    obtain ⟨k, u⟩ := p
    by_cases hk : k = n
    · subst hk
      rw [alookup_cons_eq] at h
      simpa [alookup] using h
    · rw [alookup_cons_ne _ hk] at h
      simpa [alookup, hk] using ih h

theorem alookup_append_of_none {l₁ : Store} {n : String}
    (h : alookup l₁ n = none) (l₂ : Store) : alookup (l₁ ++ l₂) n = alookup l₂ n := by
  induction l₁ with
  | nil => simp
  | cons p rest ih =>
    obtain ⟨k, u⟩ := p
    by_cases hk : k = n
    · subst hk; rw [alookup_cons_eq] at h; cases h
    · rw [alookup_cons_ne _ hk] at h
      simpa [alookup, hk] using ih h

theorem alookup_single_ne {m n : String} (h : m ≠ n) (t : Table) :
    alookup ([(n, t)] : Store) m = none := by
  simp [alookup, Ne.symm h]

theorem alookup_createIf_ne (s : Store) {m n : String} (h : m ≠ n) (cols : List String) :
    alookup (createTableIfNotExists s n cols) m = alookup s m := by
  unfold createTableIfNotExists
  by_cases he : tableExists s n = true
  · simp [he]
  · simp only [Bool.not_eq_true] at he
    simp only [he, Bool.false_eq_true, if_false]
    cases hm : alookup s m with
    | some t => exact alookup_append_of_some hm
    | none => rw [alookup_append_of_none hm]; exact alookup_single_ne h _

theorem alookup_createIf_of_none {s : Store} {n : String} (h : alookup s n = none)
    (cols : List String) :
    alookup (createTableIfNotExists s n cols) n = some ⟨cols, []⟩ := by
  unfold createTableIfNotExists tableExists
  simp only [h, Option.isSome_none, Bool.false_eq_true, if_false]
  rw [alookup_append_of_none h]
  simp [alookup]

theorem alookup_createIf_of_some {s : Store} {n : String} {t : Table}
    (h : alookup s n = some t) (cols : List String) :
    alookup (createTableIfNotExists s n cols) n = some t := by
  unfold createTableIfNotExists tableExists
  simp [h]


/-! ## Claim theorems -/

/-- C1, counterexample: on the empty (fresh) store `migrate()` does not reach
version 2 — step 1 alters the missing trades table, so the call reports
failure and `currentVersion()` stays 0. -/
theorem c1_empty_store_counterexample :
    (migrate [] none 0).ok = false ∧ get_current_version (migrate [] none 0).store = 0 := by
  decide

/-- C1, amended: on the empty store `migrate()` fails with current version 0
(step 1 cannot alter the missing trades table; only the empty ledger table is
created); on a store whose base tables were first created by the bootstrap,
`migrate()` succeeds, leaves `currentVersion()` at 2, the ledger holds exactly
the rows for versions 1 and 2 in that order with strictly increasing
applied_at, and `status().needs_migration` is false. -/
theorem c1_migrate_after_bootstrap :
    (migrate [] none 0).ok = false ∧
    get_current_version (migrate [] none 0).store = 0 ∧
    ledgerHasVersion (migrate [] none 0).store 1 = false ∧
    (migrate (init_database []) none 0).ok = true ∧
    get_current_version (migrate (init_database []) none 0).store = 2 ∧
    appliedLedger (migrate (init_database []) none 0).store = [(1, 2), (2, 5)] ∧
    (2 : Int) < 5 ∧
    needsMigration (migrate (init_database []) none 0).store = false := by
  decide

/-- C2, counterexample: on the empty store a migration step fails
(`migrate()` returns failure), yet `DatabaseManager` startup does not abort —
it proceeds to bootstrap and the process begins serving. -/
theorem c2_startup_counterexample :
    (migrate [] none 0).ok = false ∧ (dbManagerStartup [] 0).isOk = true := by
  decide

/-- C2, amended: every failure inside `migrate()` is caught and surfaced only
as a False return value; the `migrations.py` CLI entry point exits non-zero on
failure, but `DatabaseManager._run_migrations` merely logs a warning and
startup continues to initialize and serve. -/
theorem c2_failure_surfacing (s : Store) (targetArg : Option Int) (clk : Nat)
    (h : (migrate s targetArg clk).ok = false) :
    cliMigrateExit s targetArg clk = 1 ∧ (dbManagerStartup s clk).isOk = true := by
  refine ⟨?_, rfl⟩
  simp [cliMigrateExit, h]

theorem c2_failure_surfacing_witness :
    cliMigrateExit [] none 0 = 1 ∧ (dbManagerStartup [] 0).isOk = true :=
  c2_failure_surfacing [] none 0 (by decide)

/-- C3, counterexample: with a version-1 store whose legacy billing table
lacks base_month, migration 002 fails after its rename already committed:
`migrate()` reports failure but the renamed `billing_records_old` table — a
partial schema change of the failing step — persists, because the code wraps
no per-step transaction around DDL statements. -/
theorem c3_partial_commit_counterexample :
    (migrate c3store none 0).ok = false ∧
    tableExists c3store "billing_records_old" = false ∧
    tableExists (migrate c3store none 0).store "billing_records_old" = true := by
  decide

/-- C5: whenever the requested target version is at most the current ledger
version, `migrate()` is a no-op — it reports success, writes no ledger row
and changes no table (the store is returned unchanged). -/
theorem c5_migrate_noop (s : Store) (targetArg : Option Int) (clk : Nat)
    (h : targetArg.getD latestVersion ≤ get_current_version s) :
    migrate s targetArg clk = ⟨true, s, clk⟩ := by
  simp only [migrate]
  rw [if_pos h]

theorem c5_migrate_noop_witness :
    (Option.some (2 : Int)).getD latestVersion ≤ get_current_version storeAtV2 ∧
    migrate storeAtV2 (some 2) 7 = ⟨true, storeAtV2, 7⟩ :=
  ⟨by decide, c5_migrate_noop storeAtV2 (some 2) 7 (by decide)⟩

/-- C6, counterexample: the legacy upgrade path succeeds, but the fresh
bootstrap path does not converge to the same billing_records column set —
the bootstrap table lacks related_po. -/
theorem c6_column_convergence_counterexample :
    (migrate seededLegacyStore none 0).ok = true ∧
    listSetEq (pragmaColumns freshPathStore "billing_records")
      (pragmaColumns upgradedLegacyStore "billing_records") = false := by
  decide

/-- C6, amended: the trades tables of the two paths do have the same column
set, but billing_records differs — the migrated store has a related_po
column the bootstrap-created table lacks — and the fresh path never creates
physical_purchases at all (PhysicalPurchaseDB.init_table raises on it). -/
theorem c6_schema_divergence :
    listSetEq (pragmaColumns freshPathStore "trades")
      (pragmaColumns upgradedLegacyStore "trades") = true ∧
    (pragmaColumns upgradedLegacyStore "billing_records").contains "related_po" = true ∧
    (pragmaColumns freshPathStore "billing_records").contains "related_po" = false ∧
    tableExists freshPathStore "physical_purchases" = false ∧
    (init_table freshPathStore).isErr = true := by
  decide

/-- C9: rollback with a target at or above the current version returns False
immediately and leaves the store entirely unchanged. -/
theorem c9_rollback_refuses (s : Store) (target : Int)
    (h : target ≥ get_current_version s) :
    rollback s target = (false, s) := by
  simp only [rollback]
  rw [if_pos h]

theorem c9_rollback_refuses_witness :
    (2 : Int) ≥ get_current_version storeAtV2 ∧
    rollback storeAtV2 2 = (false, storeAtV2) :=
  ⟨by decide, c9_rollback_refuses storeAtV2 2 (by decide)⟩

/-! ## Step-1 idempotence (claim C7) -/

theorem addColsFold_skip (cols0 : List String) :
    ∀ (names : List String) (c : Conn),
    (∀ col ∈ names, cols0.contains col = true) →
    addColsFold cols0 names (SqlOut.ok c) = SqlOut.ok c := by
  intro names
  induction names with
  | nil => intro c _; rfl
  | cons col rest ih =>
    intro c h
    have hc : col ∈ cols0 := by simpa using h col (List.mem_cons_self _ _)
    show addColsFold cols0 rest ((SqlOut.ok c).seq (addColStep cols0 col)) = _
    have hstep : (SqlOut.ok c).seq (addColStep cols0 col) = SqlOut.ok c := by
      simp [SqlOut.seq, addColStep, hc]
    rw [hstep]
    exact ih c (fun x hm => h x (List.mem_cons_of_mem _ hm))

theorem addColsFold_spec (cols0 : List String) :
    ∀ (names : List String) (s : Store) (tcols : List String) (rows : List Row),
    alookup s "trades" = some ⟨tcols, rows⟩ →
    names.Nodup →
    (∀ col ∈ names, cols0.contains col = false → col ∉ tcols) →
    ∃ (s' : Store) (rows' : List Row),
      addColsFold cols0 names (SqlOut.ok ⟨s, s, false⟩) = SqlOut.ok ⟨s', s', false⟩ ∧
      alookup s' "trades" =
        some ⟨tcols ++ names.filter (fun c => !cols0.contains c), rows'⟩ ∧
      (∀ m : String, m ≠ "trades" → alookup s' m = alookup s m) := by
  intro names
  induction names with
  | nil =>
    intro s tcols rows hlk _ _
    exact ⟨s, rows, rfl, by simpa using hlk, fun m _ => rfl⟩
  | cons col rest ih =>
    intro s tcols rows hlk hnd h2
    have hstep : addColsFold cols0 (col :: rest) (SqlOut.ok ⟨s, s, false⟩)
        = addColsFold cols0 rest ((SqlOut.ok ⟨s, s, false⟩).seq (addColStep cols0 col)) := rfl
    by_cases hc : cols0.contains col = true
    · have hmem0 : col ∈ cols0 := by simpa using hc
      have hskip : (SqlOut.ok (⟨s, s, false⟩ : Conn)).seq (addColStep cols0 col)
          = SqlOut.ok ⟨s, s, false⟩ := by
        simp [SqlOut.seq, addColStep, hmem0]
      obtain ⟨s', rows', hfold, hlk', hother⟩ :=
        ih s tcols rows hlk hnd.of_cons
          (fun x hm hcc => h2 x (List.mem_cons_of_mem _ hm) hcc)
      refine ⟨s', rows', ?_, ?_, hother⟩
      · rw [hstep, hskip]; exact hfold
      · have hfilter : (col :: rest).filter (fun c => !cols0.contains c)
            = rest.filter (fun c => !cols0.contains c) :=
          List.filter_cons_of_neg (by simp [hmem0])
        rw [hfilter]; exact hlk'
    · have hcf : cols0.contains col = false := by
        simpa using hc
      have hmem0 : col ∉ cols0 := by simpa using hc
      have hnotmem : col ∉ tcols := h2 col (List.mem_cons_self _ _) hcf
      have hadd : alterAddColumn s "trades" col
          = Except.ok (setTable s "trades"
              ⟨tcols ++ [col], rows.map (fun r => r ++ [(col, Value.nullV)])⟩) := by
        simp [alterAddColumn, hlk, hnotmem]
      have hdo : (SqlOut.ok (⟨s, s, false⟩ : Conn)).seq (addColStep cols0 col)
          = SqlOut.ok ⟨setTable s "trades"
              ⟨tcols ++ [col], rows.map (fun r => r ++ [(col, Value.nullV)])⟩,
            setTable s "trades"
              ⟨tcols ++ [col], rows.map (fun r => r ++ [(col, Value.nullV)])⟩, false⟩ := by
        simp [SqlOut.seq, addColStep, hmem0, execDDL, hadd]
      have hcolrest : col ∉ rest := by
        exact (List.nodup_cons.mp hnd).1
      obtain ⟨s', rows', hfold, hlk', hother⟩ :=
        ih (setTable s "trades"
              ⟨tcols ++ [col], rows.map (fun r => r ++ [(col, Value.nullV)])⟩)
          (tcols ++ [col]) (rows.map (fun r => r ++ [(col, Value.nullV)]))
          (alookup_setTable_self _ _ _) hnd.of_cons
          (fun x hm hcc => by
            intro hmem
            rcases List.mem_append.mp hmem with hx | hx
            · exact h2 x (List.mem_cons_of_mem _ hm) hcc hx
            · have : x = col := by simpa using hx
              exact hcolrest (this ▸ hm))
      refine ⟨s', rows', ?_, ?_, ?_⟩
      · rw [hstep, hdo]; exact hfold
      · have hfilter : (col :: rest).filter (fun c => !cols0.contains c)
            = col :: rest.filter (fun c => !cols0.contains c) :=
          List.filter_cons_of_pos (by simp [hmem0])
        rw [hfilter]
        have hassoc : (tcols ++ [col]) ++ rest.filter (fun c => !cols0.contains c)
            = tcols ++ col :: rest.filter (fun c => !cols0.contains c) := by
          simp
        rw [← hassoc]; exact hlk'
      · intro m hm
        rw [hother m hm, alookup_setTable_ne s hm]

/-- C7: on any store whose trades table exists (with duplicate-free
columns), applying step 1 succeeds, applying it again is a no-op that does
not raise, and afterwards the trades table has exactly one column each
named supplier, settlement_price, premium, physical_tons and related_po. -/
theorem c7_step1_idempotent (s : Store) (tcols : List String) (rows : List Row)
    (hlk : alookup s "trades" = some ⟨tcols, rows⟩) (hnd : tcols.Nodup) :
    ∃ (s₁ : Store) (rows₁ : List Row),
      migration001_up ⟨s, s, false⟩ = SqlOut.ok ⟨s₁, s₁, false⟩ ∧
      alookup s₁ "trades" =
        some ⟨tcols ++ supplierCols.filter (fun c => !tcols.contains c), rows₁⟩ ∧
      migration001_up ⟨s₁, s₁, false⟩ = SqlOut.ok ⟨s₁, s₁, false⟩ ∧
      (∀ col ∈ supplierCols,
        (tcols ++ supplierCols.filter (fun c => !tcols.contains c)).count col = 1) := by
  have hpc : pragmaColumns s "trades" = tcols := by simp [pragmaColumns, hlk]
  obtain ⟨s₁, rows₁, hfold, hlk', hother⟩ :=
    addColsFold_spec tcols supplierCols s tcols rows hlk (by decide)
      (fun col hm hcc => by simpa using hcc)
  refine ⟨s₁, rows₁, ?_, hlk', ?_, ?_⟩
  · simp only [migration001_up]
    rw [show pragmaColumns (Conn.mk s s false).cur "trades" = tcols from hpc]
    exact hfold
  · have hpc1 : pragmaColumns s₁ "trades"
        = tcols ++ supplierCols.filter (fun c => !tcols.contains c) := by
      simp [pragmaColumns, hlk']
    have hall : ∀ col ∈ supplierCols,
        (tcols ++ supplierCols.filter (fun c => !tcols.contains c)).contains col = true := by
      intro col hm
      by_cases hmem : col ∈ tcols
      · simp [List.mem_append, hmem]
      · simp [List.mem_append]
        exact Or.inr ⟨hm, hmem⟩
    simp only [migration001_up]
    rw [show pragmaColumns (Conn.mk s₁ s₁ false).cur "trades"
          = tcols ++ supplierCols.filter (fun c => !tcols.contains c) from hpc1]
    exact addColsFold_skip _ supplierCols ⟨s₁, s₁, false⟩ hall
  · intro col hm
    rw [List.count_append]
    by_cases hmem : col ∈ tcols
    · rw [List.count_eq_one_of_mem hnd hmem]
      have hnot : col ∉ supplierCols.filter (fun c => !tcols.contains c) := by
        intro hcontra
        exact (by simpa using (List.mem_filter.mp hcontra).2 : col ∉ tcols) hmem
      rw [List.count_eq_zero_of_not_mem hnot]
    · rw [List.count_eq_zero_of_not_mem hmem]
      have hnd5 : (supplierCols.filter (fun c => !tcols.contains c)).Nodup :=
        List.Nodup.filter _ (by decide)
      have hmemf : col ∈ supplierCols.filter (fun c => !tcols.contains c) :=
        List.mem_filter.mpr ⟨hm, by simp [hmem]⟩
      rw [List.count_eq_one_of_mem hnd5 hmemf]

theorem c7_step1_idempotent_witness :
    alookup c7store "trades" = some ⟨legacyTradesCols, []⟩ ∧
    legacyTradesCols.Nodup ∧
    (∃ (s₁ : Store) (rows₁ : List Row),
      migration001_up ⟨c7store, c7store, false⟩ = SqlOut.ok ⟨s₁, s₁, false⟩ ∧
      alookup s₁ "trades" =
        some ⟨legacyTradesCols ++ supplierCols.filter (fun c => !legacyTradesCols.contains c), rows₁⟩ ∧
      migration001_up ⟨s₁, s₁, false⟩ = SqlOut.ok ⟨s₁, s₁, false⟩ ∧
      (∀ col ∈ supplierCols,
        (legacyTradesCols
          ++ supplierCols.filter (fun c => !legacyTradesCols.contains c)).count col = 1)) :=
  ⟨rfl, by decide, c7_step1_idempotent c7store legacyTradesCols [] rfl (by decide)⟩

/-- Deleting the version-v rows of a ledger filters v out of its version
list. -/
theorem ledgerVersionsOf_delete (cols : List String) (rows : List Row) (v : Int) :
    ledgerVersionsOf ⟨cols, rows.filter (fun r => !(rowGet r "version" == Value.intV v))⟩
      = (ledgerVersionsOf ⟨cols, rows⟩).filter (fun x => !(x == v)) := by
  induction rows with
  | nil => rfl
  | cons r rest ih =>
    simp only [ledgerVersionsOf] at ih ⊢
    cases hv : alookup r "version" with
    | none =>
      have hrg : rowGet r "version" = Value.nullV := by simp [rowGet, hv]
      have hvr : versionOfRow r = none := by simp [versionOfRow, hv]
      rw [List.filter_cons_of_pos (by simp [hrg])]
      simp only [List.filterMap_cons, hvr]
      exact ih
    | some w =>
      cases w with
      | intV x =>
        have hrg : rowGet r "version" = Value.intV x := by simp [rowGet, hv]
        have hvr : versionOfRow r = some x := by simp [versionOfRow, hv]
        by_cases hx : x = v
        · subst hx
          rw [List.filter_cons_of_neg (by simp [hrg])]
          simp only [List.filterMap_cons, hvr]
          rw [List.filter_cons_of_neg (by simp)]
          exact ih
        · rw [List.filter_cons_of_pos (by simp [hrg, hx])]
          simp only [List.filterMap_cons, hvr]
          rw [List.filter_cons_of_pos (by simp [hx])]
          rw [ih]
      | strV a =>
        have hrg : rowGet r "version" = Value.strV a := by simp [rowGet, hv]
        have hvr : versionOfRow r = none := by simp [versionOfRow, hv]
        rw [List.filter_cons_of_pos (by simp [hrg])]
        simp only [List.filterMap_cons, hvr]
        exact ih
      | nullV =>
        have hrg : rowGet r "version" = Value.nullV := by simp [rowGet, hv]
        have hvr : versionOfRow r = none := by simp [versionOfRow, hv]
        rw [List.filter_cons_of_pos (by simp [hrg])]
        simp only [List.filterMap_cons, hvr]
        exact ih

/-- C8: from a store whose ledger holds exactly versions 1 and 2,
`rollback(1)` succeeds; afterwards the current version is 1, the ledger no
longer holds the version-2 row, and the billing_records table is gone. -/
theorem c8_rollback_to_v1 (s : Store) (L : Table)
    (hsv : alookup s "schema_version" = some L)
    (hver : ledgerVersionsOf L = [1, 2]) :
    (rollback s 1).1 = true ∧
    get_current_version (rollback s 1).2 = 1 ∧
    ledgerHasVersion (rollback s 1).2 2 = false ∧
    alookup (rollback s 1).2 "billing_records" = none := by
  have hcur : get_current_version s = 2 := by
    simp only [get_current_version, hsv]
    rw [hver]
    decide
  have hsv1 : alookup (delTable s "billing_records") "schema_version" = some L := by
    rw [alookup_delTable_ne s (by decide)]
    exact hsv
  have hld : ledgerDelete (delTable s "billing_records") 2
      = Except.ok (setTable (delTable s "billing_records") "schema_version"
          ⟨L.columns, L.rows.filter (fun r => !(rowGet r "version" == Value.intV 2))⟩) := by
    simp only [ledgerDelete, hsv1]
  have h2 : migrationDown 2 ⟨s, s, false⟩
      = SqlOut.ok ⟨delTable s "billing_records", delTable s "billing_records", false⟩ := by
    simp only [migrationDown]
    rw [if_neg (by norm_num)]
    rfl
  have hroll : rollback s 1
      = (true, setTable (delTable s "billing_records") "schema_version"
          ⟨L.columns, L.rows.filter (fun r => !(rowGet r "version" == Value.intV 2))⟩) := by
    simp only [rollback, hcur]
    rw [if_neg (by norm_num)]
    rw [show downRange 2 1 = [2] from by decide]
    simp only [rollbackLoop]
    rw [if_pos (show registryHas 2 = true from by decide)]
    rw [h2]
    simp only [execDML]
    rw [hld]
    rfl
  have hfe : (⟨L.columns, L.rows⟩ : Table) = L := rfl
  have hvd := ledgerVersionsOf_delete L.columns L.rows 2
  rw [hfe, hver] at hvd
  refine ⟨by rw [hroll], ?_, ?_, ?_⟩
  · rw [hroll]
    simp only [get_current_version, alookup_setTable_self]
    rw [hvd]
    decide
  · rw [hroll]
    simp only [ledgerHasVersion, alookup_setTable_self]
    rw [hvd]
    decide
  · rw [hroll]
    rw [alookup_setTable_ne _ (by decide)]
    exact alookup_delTable_self s _

theorem c8_rollback_to_v1_witness :
    alookup storeAtV2 "schema_version"
      = some ⟨schemaVersionCols, [ledgerRow 1 2, ledgerRow 2 5]⟩ ∧
    ledgerVersionsOf ⟨schemaVersionCols, [ledgerRow 1 2, ledgerRow 2 5]⟩ = [1, 2] ∧
    ((rollback storeAtV2 1).1 = true ∧
     get_current_version (rollback storeAtV2 1).2 = 1 ∧
     ledgerHasVersion (rollback storeAtV2 1).2 2 = false ∧
     alookup (rollback storeAtV2 1).2 "billing_records" = none) :=
  ⟨rfl, by decide, c8_rollback_to_v1 storeAtV2 ⟨schemaVersionCols, [ledgerRow 1 2, ledgerRow 2 5]⟩ rfl (by decide)⟩

theorem execDDLTotal_free (s : Store) (f : Store → Store) :
    execDDLTotal ⟨s, s, false⟩ f = ⟨f s, f s, false⟩ := rfl

/-- C10: when no physical_purchases table exists, `init_table` raises (the
except-branch fallback copy itself selects from the missing table) and the
table is still not created; when physical_purchases already has the premium
column, `init_table` succeeds, leaves physical_purchases unchanged, and
leaves behind a newly created empty physical_purchases_new table. -/
theorem c10_physical_init_table (s₁ s₂ : Store) (t : Table)
    (h1 : alookup s₁ "physical_purchases" = none)
    (h2 : alookup s₂ "physical_purchases" = some t)
    (h3 : t.columns.contains "premium" = true)
    (h4 : alookup s₂ "physical_purchases_new" = none) :
    (∃ (m : String) (c : Conn), init_table s₁ = SqlOut.err m c ∧
        alookup c.committed "physical_purchases" = none) ∧
    (∃ (s' : Store), init_table s₂ = SqlOut.ok ⟨s', s', false⟩ ∧
        alookup s' "physical_purchases" = some t ∧
        alookup s' "physical_purchases_new" = some ⟨physicalCols, []⟩) := by
  constructor
  · have hpp : alookup (createTableIfNotExists
        (createTableIfNotExists s₁ "physical_purchases_new" physicalCols)
        "purchase_trade_relations" relationsCols) "physical_purchases" = none := by
      rw [alookup_createIf_ne _ (by decide), alookup_createIf_ne _ (by decide)]
      exact h1
    have hex : tableExists (createTableIfNotExists
        (createTableIfNotExists s₁ "physical_purchases_new" physicalCols)
        "purchase_trade_relations" relationsCols) "physical_purchases" = false := by
      simp [tableExists, hpp]
    have hins : insertSelectMapped (createTableIfNotExists
          (createTableIfNotExists s₁ "physical_purchases_new" physicalCols)
          "purchase_trade_relations" relationsCols)
        "physical_purchases_new" physicalCopyCols "physical_purchases" physicalCopyCols
        physicalDefaults []
        = Except.error "no such table: physical_purchases" := by
      simp [insertSelectMapped, hpp]
    refine ⟨"no such table: physical_purchases",
      ⟨createTableIfNotExists (createTableIfNotExists s₁ "physical_purchases_new" physicalCols)
          "purchase_trade_relations" relationsCols,
       createTableIfNotExists (createTableIfNotExists s₁ "physical_purchases_new" physicalCols)
          "purchase_trade_relations" relationsCols, false⟩, ?_, hpp⟩
    simp only [init_table, execDDLTotal_free]
    rw [hex]
    simp only [Bool.false_and, Bool.false_eq_true, if_false, execDML]
    rw [hins]
    rfl
  · have hu2pp : alookup (createTableIfNotExists
        (createTableIfNotExists s₂ "physical_purchases_new" physicalCols)
        "purchase_trade_relations" relationsCols) "physical_purchases" = some t := by
      rw [alookup_createIf_ne _ (by decide), alookup_createIf_ne _ (by decide)]
      exact h2
    have hpnew : alookup (createTableIfNotExists
        (createTableIfNotExists s₂ "physical_purchases_new" physicalCols)
        "purchase_trade_relations" relationsCols) "physical_purchases_new"
        = some ⟨physicalCols, []⟩ := by
      rw [alookup_createIf_ne _ (by decide)]
      exact alookup_createIf_of_none h4 _
    have hexx : tableExists (createTableIfNotExists
        (createTableIfNotExists s₂ "physical_purchases_new" physicalCols)
        "purchase_trade_relations" relationsCols) "physical_purchases" = true := by
      simp [tableExists, hu2pp]
    have hprag : pragmaColumns (createTableIfNotExists
        (createTableIfNotExists s₂ "physical_purchases_new" physicalCols)
        "purchase_trade_relations" relationsCols) "physical_purchases" = t.columns := by
      simp [pragmaColumns, hu2pp]
    refine ⟨createTableIfNotExists
        (createTableIfNotExists s₂ "physical_purchases_new" physicalCols)
        "purchase_trade_relations" relationsCols, ?_, hu2pp, hpnew⟩
    simp only [init_table, execDDLTotal_free]
    rw [hexx, hprag, h3]
    rfl

theorem c10_physical_init_table_witness :
    alookup ([] : Store) "physical_purchases" = none ∧
    alookup ([("physical_purchases", (⟨physicalCols, []⟩ : Table))] : Store)
      "physical_purchases" = some ⟨physicalCols, []⟩ ∧
    (⟨physicalCols, ([] : List Row)⟩ : Table).columns.contains "premium" = true ∧
    alookup ([("physical_purchases", (⟨physicalCols, []⟩ : Table))] : Store)
      "physical_purchases_new" = none ∧
    ((∃ (m : String) (c : Conn), init_table [] = SqlOut.err m c ∧
        alookup c.committed "physical_purchases" = none) ∧
     (∃ (s' : Store),
        init_table [("physical_purchases", ⟨physicalCols, []⟩)] = SqlOut.ok ⟨s', s', false⟩ ∧
        alookup s' "physical_purchases" = some ⟨physicalCols, []⟩ ∧
        alookup s' "physical_purchases_new" = some ⟨physicalCols, []⟩)) :=
  ⟨rfl, rfl, by decide, rfl,
   c10_physical_init_table [] [("physical_purchases", ⟨physicalCols, []⟩)]
     ⟨physicalCols, []⟩ rfl rfl (by decide) rfl⟩

theorem renamed_lookup_old (s : Store) (legacy : Table)
    (hold : alookup s "billing_records_old" = none) :
    alookup (renamedBillingStore s legacy) "billing_records_old" = some legacy := by
  unfold renamedBillingStore
  apply alookup_append_of_some
  rw [alookup_append_of_none]
  · exact alookup_cons_eq _ _ _
  · rw [alookup_delTable_ne s (by decide)]
    exact hold

theorem renamed_lookup_br (s : Store) (legacy : Table) :
    alookup (renamedBillingStore s legacy) "billing_records"
      = some ⟨billingCols, []⟩ := by
  unfold renamedBillingStore
  rw [alookup_append_of_none]
  · exact alookup_cons_eq _ _ _
  · rw [alookup_append_of_none (alookup_delTable_self s _)]
    exact alookup_single_ne (by decide) _

theorem renamed_lookup_other (s : Store) (legacy : Table) {m : String}
    (hm1 : m ≠ "billing_records") (hm2 : m ≠ "billing_records_old") :
    alookup (renamedBillingStore s legacy) m = alookup s m := by
  unfold renamedBillingStore
  cases hs : alookup s m with
  | some u =>
    apply alookup_append_of_some
    apply alookup_append_of_some
    rw [alookup_delTable_ne s hm1]
    exact hs
  | none =>
    rw [alookup_append_of_none, alookup_single_ne hm1]
    rw [alookup_append_of_none, alookup_single_ne hm2]
    rw [alookup_delTable_ne s hm1]
    exact hs

/-- Running migrate from ledger version 1 with resolved target 2 enters the
per-version loop for version 2 only. -/
theorem migrate_v1_to_2 (s : Store) (clk : Nat) (tgt : Option Int)
    (hcur : get_current_version s = 1) (htgt : tgt.getD latestVersion = 2)
    (hex : tableExists s "schema_version" = true) :
    migrate s tgt clk = migrateLoop [2] ⟨s, s, false⟩ clk := by
  simp only [migrate, hcur, htgt]
  rw [if_neg (by norm_num)]
  rw [if_neg (by norm_num [latestVersion])]
  rw [execDDLTotal_free]
  rw [show createTableIfNotExists s "schema_version" schemaVersionCols = s from by
    simp [createTableIfNotExists, hex]]
  rw [show versionRange 1 2 = [2] from by decide]

/-- Under migration 002's legacy branch, the rename and the canonical
CREATE commit, and the step continues with the row copy and the drop. -/
theorem migration002_up_legacy (s : Store) (legacy : Table)
    (hbr : alookup s "billing_records" = some legacy)
    (hbd : legacy.columns.contains "billing_date" = true)
    (hbm : legacy.columns.contains "billing_month" = false)
    (hold : alookup s "billing_records_old" = none) :
    migration002_up ⟨s, s, false⟩
      = (execDML ⟨renamedBillingStore s legacy, renamedBillingStore s legacy, false⟩
          (fun st => insertSelectMapped st "billing_records" billingCopyDest
            "billing_records_old" billingCopySrc [] billingNotNull)).seq
        (fun c => execDDL c (fun st => dropTable st "billing_records_old")) := by
  have hren : renameTable s "billing_records" "billing_records_old"
      = Except.ok (delTable s "billing_records" ++ [("billing_records_old", legacy)]) := by
    simp [renameTable, hbr, tableExists, hold]
  have hS1br : alookup (delTable s "billing_records"
      ++ [("billing_records_old", legacy)]) "billing_records" = none := by
    rw [alookup_append_of_none (alookup_delTable_self s _)]
    exact alookup_single_ne (by decide) _
  have hS2def : createTableIfNotExists
      (delTable s "billing_records" ++ [("billing_records_old", legacy)])
      "billing_records" billingCols = renamedBillingStore s legacy := by
    simp only [createTableIfNotExists, tableExists, hS1br]
    rfl
  have hS2old : tableExists (renamedBillingStore s legacy) "billing_records_old" = true := by
    simp [tableExists, renamed_lookup_old s legacy hold]
  simp only [migration002_up]
  rw [show tableExists s "billing_records" = true from by simp [tableExists, hbr]]
  rw [show pragmaColumns s "billing_records" = legacy.columns from by
    simp [pragmaColumns, hbr]]
  rw [hbd, hbm]
  simp only [Bool.not_false, Bool.and_self, if_true, SqlOut.seq, execDDL]
  rw [hren]
  simp only [Bool.false_eq_true, if_false, SqlOut.seq, execDDLTotal_free]
  rw [hS2def, hS2old]
  simp only [if_true]

/-- C3, amended: when step v's apply raises during migrate(), the call
reports failure, writes no ledger row for v (the ledger table is untouched,
hence consistent with the previously committed steps) and attempts no later
version; but schema changes the failing step made before its failing
statement persist — DDL statements autocommit, there is no per-step
transaction to roll back.  Shown for the family of version-1 stores whose
legacy billing table lacks base_month: the committed rename to
billing_records_old survives the failure. -/
theorem c3_step_failure_behavior (s : Store) (legacy L : Table) (clk : Nat)
    (hsv : alookup s "schema_version" = some L)
    (hcur : get_current_version s = 1)
    (hbr : alookup s "billing_records" = some legacy)
    (hbd : legacy.columns.contains "billing_date" = true)
    (hbm : legacy.columns.contains "billing_month" = false)
    (hmissing : legacy.columns.contains "base_month" = false)
    (hold : alookup s "billing_records_old" = none) :
    (migrate s none clk).ok = false ∧
    alookup (migrate s none clk).store "schema_version" = some L ∧
    alookup (migrate s none clk).store "billing_records_old" = some legacy := by
  have hex : tableExists s "schema_version" = true := by simp [tableExists, hsv]
  have hmig := migrate_v1_to_2 s clk none hcur rfl hex
  have hmu : migrationUp 2 ⟨s, s, false⟩ = migration002_up ⟨s, s, false⟩ := by
    simp only [migrationUp]
    rw [if_neg (by norm_num)]
  have hall : billingCopySrc.all (fun c => legacy.columns.contains c) = false := by
    apply List.all_eq_false.mpr
    refine ⟨"base_month", by decide, ?_⟩
    simpa using hmissing
  have hins : insertSelectMapped (renamedBillingStore s legacy) "billing_records"
      billingCopyDest "billing_records_old" billingCopySrc [] billingNotNull
      = Except.error "no such column in source table" := by
    simp only [insertSelectMapped, renamed_lookup_old s legacy hold]
    rw [hall]
    rfl
  have hstep := migration002_up_legacy s legacy hbr hbd hbm hold
  have hloop : migrateLoop [2] ⟨s, s, false⟩ clk
      = ⟨false, renamedBillingStore s legacy, clk + 1⟩ := by
    simp only [migrateLoop]
    rw [if_pos (show registryHas 2 = true from by decide)]
    rw [hmu, hstep]
    simp only [execDML]
    rw [hins]
    rfl
  rw [hmig, hloop]
  exact ⟨rfl, (renamed_lookup_other s legacy (by decide) (by decide)).trans hsv,
    renamed_lookup_old s legacy hold⟩

theorem c3_step_failure_behavior_witness :
    alookup c3store "schema_version" = some ⟨schemaVersionCols, [ledgerRow 1 2]⟩ ∧
    get_current_version c3store = 1 ∧
    alookup c3store "billing_records" = some ⟨["id", "trade_id", "billing_date"], []⟩ ∧
    ((migrate c3store none 0).ok = false ∧
     alookup (migrate c3store none 0).store "schema_version"
       = some ⟨schemaVersionCols, [ledgerRow 1 2]⟩ ∧
     alookup (migrate c3store none 0).store "billing_records_old"
       = some ⟨["id", "trade_id", "billing_date"], []⟩) :=
  ⟨rfl, by decide, rfl,
   c3_step_failure_behavior c3store ⟨["id", "trade_id", "billing_date"], []⟩
     ⟨schemaVersionCols, [ledgerRow 1 2]⟩ 0 rfl (by decide) rfl (by decide) (by decide)
     (by decide) rfl⟩

/-- C4: migration 002 against a version-1 store with a legacy-shaped
billing table (billing_date, no billing_month, all copied columns present,
no NULL in NOT NULL targets) moves every legacy row into the canonical
billing_records with billing_date mapped to billing_month and every other
copied column verbatim, leaving no billing_records_old behind; against a
version-1 store with no billing table it simply creates the canonical
empty billing_records. -/
theorem c4_step2_migrates_legacy
    (s : Store) (legacy L : Table) (clk : Nat)
    (hsv : alookup s "schema_version" = some L)
    (hcur : get_current_version s = 1)
    (h2led : (ledgerVersionsOf L).contains 2 = false)
    (hbr : alookup s "billing_records" = some legacy)
    (hbd : legacy.columns.contains "billing_date" = true)
    (hbm : legacy.columns.contains "billing_month" = false)
    (hsrc : billingCopySrc.all (fun c => legacy.columns.contains c) = true)
    (hold : alookup s "billing_records_old" = none)
    (hnn : ((legacy.rows.map (mapRow billingCols (billingCopyDest.zip billingCopySrc) [])).all
        (fun nr => billingNotNull.all (fun c => !(rowGet nr c == Value.nullV)))) = true)
    (sB : Store) (LB : Table) (clkB : Nat)
    (hsvB : alookup sB "schema_version" = some LB)
    (hcurB : get_current_version sB = 1)
    (h2ledB : (ledgerVersionsOf LB).contains 2 = false)
    (hbrB : alookup sB "billing_records" = none)
    (holdB : alookup sB "billing_records_old" = none) :
    ((migrate s (some 2) clk).ok = true ∧
     alookup (migrate s (some 2) clk).store "billing_records"
       = some ⟨billingCols,
           legacy.rows.map (mapRow billingCols (billingCopyDest.zip billingCopySrc) [])⟩ ∧
     alookup (migrate s (some 2) clk).store "billing_records_old" = none) ∧
    (∀ r : Row,
      rowGet (mapRow billingCols (billingCopyDest.zip billingCopySrc) [] r) "billing_month"
        = rowGet r "billing_date" ∧
      ∀ c ∈ billingVerbatimCols,
        rowGet (mapRow billingCols (billingCopyDest.zip billingCopySrc) [] r) c
          = rowGet r c) ∧
    ((migrate sB (some 2) clkB).ok = true ∧
     alookup (migrate sB (some 2) clkB).store "billing_records"
       = some ⟨billingCols, []⟩) := by
  have hmu : ∀ c : Conn, migrationUp 2 c = migration002_up c := by
    intro c
    simp only [migrationUp]
    rw [if_neg (by norm_num)]
  refine ⟨?_, ?_, ?_⟩
  · -- legacy scenario
    have hex : tableExists s "schema_version" = true := by simp [tableExists, hsv]
    have hmig := migrate_v1_to_2 s clk (some 2) hcur rfl hex
    have hRold := renamed_lookup_old s legacy hold
    have hRbr := renamed_lookup_br s legacy
    have hins : insertSelectMapped (renamedBillingStore s legacy) "billing_records"
        billingCopyDest "billing_records_old" billingCopySrc [] billingNotNull
        = Except.ok (setTable (renamedBillingStore s legacy) "billing_records"
            ⟨billingCols,
             legacy.rows.map (mapRow billingCols (billingCopyDest.zip billingCopySrc) [])⟩) := by
      simp only [insertSelectMapped, hRold, hRbr]
      rw [hsrc]
      rw [show billingCopyDest.all (fun c => billingCols.contains c) = true from by decide]
      simp only [Bool.not_true, Bool.false_eq_true, if_false]
      rw [hnn]
      simp only [Bool.not_true, Bool.false_eq_true, if_false, List.nil_append]
    have hS3old : alookup (setTable (renamedBillingStore s legacy) "billing_records"
        ⟨billingCols,
         legacy.rows.map (mapRow billingCols (billingCopyDest.zip billingCopySrc) [])⟩)
        "billing_records_old" = some legacy := by
      rw [alookup_setTable_ne _ (by decide)]
      exact hRold
    have hdrop : dropTable (setTable (renamedBillingStore s legacy) "billing_records"
        ⟨billingCols,
         legacy.rows.map (mapRow billingCols (billingCopyDest.zip billingCopySrc) [])⟩)
        "billing_records_old"
        = Except.ok (delTable (setTable (renamedBillingStore s legacy) "billing_records"
            ⟨billingCols,
             legacy.rows.map (mapRow billingCols (billingCopyDest.zip billingCopySrc) [])⟩)
            "billing_records_old") := by
      simp [dropTable, tableExists, hS3old]
    have hstep2 : migration002_up ⟨s, s, false⟩
        = SqlOut.ok ⟨renamedBillingStore s legacy,
            delTable (setTable (renamedBillingStore s legacy) "billing_records"
              ⟨billingCols,
               legacy.rows.map (mapRow billingCols (billingCopyDest.zip billingCopySrc) [])⟩)
              "billing_records_old", true⟩ := by
      rw [migration002_up_legacy s legacy hbr hbd hbm hold]
      simp only [execDML]
      rw [hins]
      simp only [SqlOut.seq, execDDL]
      rw [hdrop]
      simp
    have hS4sv : alookup (delTable (setTable (renamedBillingStore s legacy) "billing_records"
        ⟨billingCols,
         legacy.rows.map (mapRow billingCols (billingCopyDest.zip billingCopySrc) [])⟩)
        "billing_records_old") "schema_version" = some L := by
      rw [alookup_delTable_ne _ (by decide), alookup_setTable_ne _ (by decide)]
      exact (renamed_lookup_other s legacy (by decide) (by decide)).trans hsv
    have hledins : ledgerInsert (delTable (setTable (renamedBillingStore s legacy)
        "billing_records"
        ⟨billingCols,
         legacy.rows.map (mapRow billingCols (billingCopyDest.zip billingCopySrc) [])⟩)
        "billing_records_old") 2 (migrationDesc 2) (Int.ofNat (clk + 2)) 1
        = Except.ok (setTable (delTable (setTable (renamedBillingStore s legacy)
            "billing_records"
            ⟨billingCols,
             legacy.rows.map (mapRow billingCols (billingCopyDest.zip billingCopySrc) [])⟩)
            "billing_records_old") "schema_version"
            ⟨L.columns,
             L.rows ++ [[("version", Value.intV 2), ("description", Value.strV (migrationDesc 2)),
                         ("applied_at", Value.intV (Int.ofNat (clk + 2))),
                         ("execution_time", Value.intV 1)]]⟩) := by
      simp only [ledgerInsert, hS4sv]
      rw [h2led]
      simp only [Bool.false_eq_true, if_false]
    have hloop : migrateLoop [2] ⟨s, s, false⟩ clk
        = ⟨true, setTable (delTable (setTable (renamedBillingStore s legacy)
            "billing_records"
            ⟨billingCols,
             legacy.rows.map (mapRow billingCols (billingCopyDest.zip billingCopySrc) [])⟩)
            "billing_records_old") "schema_version"
            ⟨L.columns,
             L.rows ++ [[("version", Value.intV 2), ("description", Value.strV (migrationDesc 2)),
                         ("applied_at", Value.intV (Int.ofNat (clk + 2))),
                         ("execution_time", Value.intV 1)]]⟩, clk + 3⟩ := by
      simp only [migrateLoop]
      rw [if_pos (show registryHas 2 = true from by decide)]
      rw [hmu, hstep2]
      simp only [execDML]
      rw [hledins]
      rfl
    rw [hmig, hloop]
    refine ⟨rfl, ?_, ?_⟩
    · rw [alookup_setTable_ne _ (by decide), alookup_delTable_ne _ (by decide)]
      exact alookup_setTable_self _ _ _
    · rw [alookup_setTable_ne _ (by decide)]
      exact alookup_delTable_self _ _
  · -- the column mapping of the copy
    intro r
    refine ⟨rfl, ?_⟩
    intro c hc
    fin_cases hc <;> rfl
  · -- no billing table at all
    have hexB : tableExists sB "schema_version" = true := by simp [tableExists, hsvB]
    have hmigB := migrate_v1_to_2 sB clkB (some 2) hcurB rfl hexB
    have hcreateB : createTableIfNotExists sB "billing_records" billingCols
        = sB ++ [("billing_records", ⟨billingCols, []⟩)] := by
      simp [createTableIfNotExists, tableExists, hbrB]
    have holdB2 : alookup (sB ++ [("billing_records", (⟨billingCols, []⟩ : Table))])
        "billing_records_old" = none := by
      rw [alookup_append_of_none holdB]
      exact alookup_single_ne (by decide) _
    have hstepB : migration002_up ⟨sB, sB, false⟩
        = SqlOut.ok ⟨sB ++ [("billing_records", ⟨billingCols, []⟩)],
            sB ++ [("billing_records", ⟨billingCols, []⟩)], false⟩ := by
      simp only [migration002_up]
      rw [show tableExists sB "billing_records" = false from by simp [tableExists, hbrB]]
      simp only [Bool.false_eq_true, if_false, SqlOut.seq, execDDLTotal_free]
      rw [hcreateB]
      rw [show tableExists (sB ++ [("billing_records", (⟨billingCols, []⟩ : Table))])
            "billing_records_old" = false from by simp [tableExists, holdB2]]
      simp only [Bool.false_eq_true, if_false]
    have hsvB2 : alookup (sB ++ [("billing_records", (⟨billingCols, []⟩ : Table))])
        "schema_version" = some LB := alookup_append_of_some hsvB
    have hledinsB : ledgerInsert (sB ++ [("billing_records", ⟨billingCols, []⟩)]) 2
        (migrationDesc 2) (Int.ofNat (clkB + 2)) 1
        = Except.ok (setTable (sB ++ [("billing_records", ⟨billingCols, []⟩)])
            "schema_version"
            ⟨LB.columns,
             LB.rows ++ [[("version", Value.intV 2), ("description", Value.strV (migrationDesc 2)),
                          ("applied_at", Value.intV (Int.ofNat (clkB + 2))),
                          ("execution_time", Value.intV 1)]]⟩) := by
      simp only [ledgerInsert, hsvB2]
      rw [h2ledB]
      simp only [Bool.false_eq_true, if_false]
    have hloopB : migrateLoop [2] ⟨sB, sB, false⟩ clkB
        = ⟨true, setTable (sB ++ [("billing_records", ⟨billingCols, []⟩)]) "schema_version"
            ⟨LB.columns,
             LB.rows ++ [[("version", Value.intV 2), ("description", Value.strV (migrationDesc 2)),
                          ("applied_at", Value.intV (Int.ofNat (clkB + 2))),
                          ("execution_time", Value.intV 1)]]⟩, clkB + 3⟩ := by
      simp only [migrateLoop]
      rw [if_pos (show registryHas 2 = true from by decide)]
      rw [hmu, hstepB]
      simp only [execDML]
      rw [hledinsB]
      rfl
    rw [hmigB, hloopB]
    refine ⟨rfl, ?_⟩
    rw [alookup_setTable_ne _ (by decide)]
    rw [alookup_append_of_none hbrB]
    exact alookup_cons_eq _ _ _

theorem c4_step2_migrates_legacy_witness :
    get_current_version c4store = 1 ∧
    alookup c4store "billing_records" = some ⟨legacyBillingCols, [legacyScenarioRow]⟩ ∧
    rowGet legacyScenarioRow "billing_date" = Value.strV "2024-03" ∧
    get_current_version c4storeNoBilling = 1 ∧
    (((migrate c4store (some 2) 0).ok = true ∧
      alookup (migrate c4store (some 2) 0).store "billing_records"
        = some ⟨billingCols,
            [legacyScenarioRow].map (mapRow billingCols (billingCopyDest.zip billingCopySrc) [])⟩ ∧
      alookup (migrate c4store (some 2) 0).store "billing_records_old" = none) ∧
     (∀ r : Row,
       rowGet (mapRow billingCols (billingCopyDest.zip billingCopySrc) [] r) "billing_month"
         = rowGet r "billing_date" ∧
       ∀ c ∈ billingVerbatimCols,
         rowGet (mapRow billingCols (billingCopyDest.zip billingCopySrc) [] r) c
           = rowGet r c) ∧
     ((migrate c4storeNoBilling (some 2) 0).ok = true ∧
      alookup (migrate c4storeNoBilling (some 2) 0).store "billing_records"
        = some ⟨billingCols, []⟩)) :=
  ⟨by decide, rfl, rfl, by decide,
   c4_step2_migrates_legacy c4store ⟨legacyBillingCols, [legacyScenarioRow]⟩
     ⟨schemaVersionCols, [ledgerRow 1 2]⟩ 0 rfl (by decide) (by decide) rfl (by decide)
     (by decide) (by decide) rfl (by decide)
     c4storeNoBilling ⟨schemaVersionCols, [ledgerRow 1 2]⟩ 0 rfl (by decide) (by decide)
     rfl rfl⟩

end FTJ
